import Mathlib

/-!
Shallow embedding of `chibios.py`, a debugger-attached introspection tool for
the ChibiOS/RT thread registry.  The embedding covers:

* `ChibiosThread.__init__`  → `extractThread` (field extraction + fill-byte
  stack scan over a memory-read service that may fail);
* `ChibiosThread.state_str` → `state_str` (Python list indexing, including
  negative indices and the out-of-range `IndexError`, modelled as `Option`);
* `ChibiosThread.sanity_check` → `sanity_check` (schema capability check);
* `ChibiosThreadsCommand.invoke` → `walk` (registry traversal with the
  back-link consistency check, fuel-bounded since a corrupted `newer` cycle
  that avoids the anchor would loop forever in the source).

Machine pointers and register values are modelled as `Nat` (addresses) and
`Int` (values subject to signed arithmetic such as `r13 - stklimit`); the
memory-read service is a function returning `Option (List Nat)`, `none`
standing for `gdb.MemoryError`.
-/

namespace Chibios

/-- The stack fill byte: `'U'` = `0x55` (`CH_DBG_FILL_THREADS`). -/
def FILL_BYTE : Nat := 0x55

/-- `ChibiosThread.THREAD_STATE`: the fixed 15-entry state name table. -/
def THREAD_STATE : List String :=
  ["READY", "CURRENT", "SUSPENDED", "WTSEM", "WTMTX", "WTCOND", "SLEEPING",
   "WTEXIT", "WTOREVT", "WTANDEVT", "SNDMSGQ", "SNDMSG", "WTMSG", "WTQUEUE", "FINAL"]

/-- Python list indexing `l[n]` for an `Int` index: a nonnegative index reads
from the front, a negative index `n` with `-len ≤ n` reads `l[len + n]`, and
anything else raises `IndexError` (modelled as `none`). -/
def pyIndex (l : List String) (n : Int) : Option String :=
  if 0 ≤ n then l.get? n.toNat
  else if 0 ≤ n + l.length then l.get? (n + l.length).toNat
  else none

/-- A thread-control-block (`Thread` struct) as dereferenced from target
memory.  Optional fields (`p_stklimit`, `p_time`) carry a presence flag,
modelling `'p_stklimit' in thread.type.keys()`. -/
structure TCB where
  r13 : Int
  stklimitPresent : Bool
  stklimit : Int
  pname : String
  state : Int
  flags : Int
  prio : Int
  refs : Int
  timePresent : Bool
  time : Int
  newer : Nat
  older : Nat
deriving Repr, DecidableEq

/-- The effective `self._stklimit`: initialized to `0`, overwritten by the
field value only when `p_stklimit` exists in the struct type. -/
def effStklimit (t : TCB) : Int :=
  if t.stklimitPresent then t.stklimit else 0

/-- The immutable per-thread snapshot built by `ChibiosThread.__init__`,
exposed through the class's properties. -/
structure Snapshot where
  address : Nat
  stack_limit : Int
  stack_start : Int
  stack_size : Int
  stack_unused : Int
  name : String
  state : Int
  flags : Int
  prio : Int
  refs : Int
  time : Int
deriving Repr, DecidableEq

/-- The fill scan loop: first index (counting from `i`) of a byte that is not
the fill byte, `none` if every byte is fill. -/
def scanFrom (i : Nat) : List Nat → Option Nat
  | [] => none
  | b :: rest => if b ≠ FILL_BYTE then some i else scanFrom (i + 1) rest

/-- `for i, each in enumerate(stack): if each != 'U': ... break else: 0` —
the index of the first non-fill byte, or `0` when the loop runs to completion
(all bytes fill). -/
def scanUnused (bytes : List Nat) : Int :=
  match scanFrom 0 bytes with
  | some i => (i : Int)
  | none => 0

/-- `ChibiosThread.__init__`: extract one thread's snapshot.  `mem a n` models
`gdb.selected_inferior().read_memory(a, n)` (`none` = `gdb.MemoryError`,
which the source catches and turns into `stack_unused = 0`); `addr` is
`thread.address`. -/
def extractThread (mem : Int → Int → Option (List Nat)) (addr : Nat) (t : TCB) :
    Snapshot :=
  let stklimit := effStklimit t
  let sizeUnused : Int × Int :=
    if 0 < stklimit then
      let size := t.r13 - stklimit
      match mem stklimit size with
      | some bytes => (size, scanUnused bytes)
      | none => (size, 0)
    else (0, 0)
  { address := addr
    stack_limit := stklimit
    stack_start := t.r13
    stack_size := sizeUnused.1
    stack_unused := sizeUnused.2
    name := if 0 < t.pname.length then t.pname else "<no name>"
    state := t.state
    flags := t.flags
    prio := t.prio
    refs := t.refs
    time := if t.timePresent then t.time else 0 }

/-- `ChibiosThread.state_str`: `THREAD_STATE[self.state]` with Python list
indexing semantics (`none` = `IndexError`). -/
def state_str (s : Snapshot) : Option String :=
  pyIndex THREAD_STATE s.state

/-- Message of the fatal `gdb.GdbError` raised when the registry link fields
are missing. -/
def REGISTRY_ERROR : String :=
  "ChibiOS/RT thread registry not enabled, cannot access thread information!"

/-- Advisory printed when `p_stklimit` is absent. -/
def STKLIMIT_WARNING : String :=
  "No p_stklimit in Thread struct; enable CH_DBG_ENABLE_STACK_CHECK"

/-- Advisory printed when `p_time` is absent. -/
def TIME_WARNING : String :=
  "No p_time in Thread struct; enable CH_DBG_THREADS_PROFILING"

/-- `ChibiosThread.sanity_check`, over the field-name list of the target's
`Thread` struct type: `error` is the fatal `gdb.GdbError`, `ok ws` the list
of advisory warnings printed. -/
def sanity_check (keys : List String) : Except String (List String) :=
  if !(keys.contains "p_newer") || !(keys.contains "p_older") then
    Except.error REGISTRY_ERROR
  else
    Except.ok
      ((if keys.contains "p_stklimit" then [] else [STKLIMIT_WARNING]) ++
       (if keys.contains "p_time" then [] else [TIME_WARNING]))

/-- The debug target as the walker sees it: `deref p` dereferences a
`Thread *`, `mem` is the raw memory-read service, `rlistAddr` the address of
the registry anchor `rlist`. -/
structure Target where
  deref : Nat → TCB
  mem : Int → Int → Option (List Nat)
  rlistAddr : Nat

/-- Message of the `gdb.GdbError` raised on a back-link mismatch. -/
def CORRUPT_MSG : String := "Rlist pointer invalid--corrupt list?"

/-- Outcome of the registry walk: the rows printed, and whether the loop
returned to the sentinel (`ok`), raised the corruption error (`corrupt`,
with its fixed message), or exhausted the fuel bound (`outOfFuel`; the
source would keep following `newer` links forever). -/
inductive WalkResult where
  | ok (rows : List Snapshot)
  | corrupt (rows : List Snapshot) (msg : String)
  | outOfFuel (rows : List Snapshot)
deriving Repr, DecidableEq

/-- The snapshot the walk builds for the node at address `a`. -/
def extractAt (tg : Target) (a : Nat) : Snapshot :=
  extractThread tg.mem a (tg.deref a)

/-- Prepend an already-printed row to a walk outcome. -/
def consRow (snap : Snapshot) : WalkResult → WalkResult
  | .ok rows => .ok (snap :: rows)
  | .corrupt rows m => .corrupt (snap :: rows) m
  | .outOfFuel rows => .outOfFuel (snap :: rows)

/-- The loop of `ChibiosThreadsCommand.invoke`, from a cursor: while the
cursor is not the anchor, extract and print the node, advance
`newer = cursor.newer`, and raise the corruption error unless
`newer.older == cursor`. -/
def walkAux (tg : Target) : Nat → Nat → WalkResult
  | 0, _ => .outOfFuel []
  | fuel + 1, cursor =>
    if cursor = tg.rlistAddr then .ok []
    else
      let snap := extractAt tg cursor
      let next := (tg.deref cursor).newer
      if (tg.deref next).older ≠ cursor then .corrupt [snap] CORRUPT_MSG
      else consRow snap (walkAux tg fuel next)

/-- `ChibiosThreadsCommand.invoke` (after the schema check and header print):
walk the registry starting from the anchor's `newer` field. -/
def walk (tg : Target) (fuel : Nat) : WalkResult :=
  walkAux tg fuel (tg.deref tg.rlistAddr).newer

/-- The rows printed by a walk, whatever its outcome. -/
def rowsOf : WalkResult → List Snapshot
  | .ok rows => rows
  | .corrupt rows _ => rows
  | .outOfFuel rows => rows

/-- Outcome kind (0 = ok, 1 = corrupt, 2 = out of fuel) and row count. -/
def shapeOf : WalkResult → Nat × Nat
  | .ok rows => (0, rows.length)
  | .corrupt rows _ => (1, rows.length)
  | .outOfFuel rows => (2, rows.length)

/-- Replace a target's memory-read service, keeping structure reads intact. -/
def withMem (tg : Target) (m : Int → Int → Option (List Nat)) : Target :=
  { tg with mem := m }

/-- The addresses the walk visits (extracts a snapshot for) before stopping,
in visit order. -/
def visitedAux (tg : Target) : Nat → Nat → List Nat
  | 0, _ => []
  | fuel + 1, cursor =>
    if cursor = tg.rlistAddr then []
    else
      cursor ::
        (if (tg.deref ((tg.deref cursor).newer)).older ≠ cursor then []
         else visitedAux tg fuel (tg.deref cursor).newer)

/-- A well-formed chain hanging off `prev`: `prev.newer` points at the first
listed node, every listed node's `older` points back at its predecessor, no
listed node is the anchor, and the last node's `newer` returns to the anchor
whose `older` points back at it. -/
def chainOK (tg : Target) : Nat → List Nat → Bool
  | prev, [] =>
      ((tg.deref prev).newer == tg.rlistAddr) &&
      ((tg.deref tg.rlistAddr).older == prev)
  | prev, a :: rest =>
      ((tg.deref prev).newer == a) && ((tg.deref a).older == prev) &&
      !(a == tg.rlistAddr) && chainOK tg a rest

/-- A chain from `prev` that is consistent exactly as far as the walk checks
it, with the back-link of the node after the last listed one broken: the
walk will extract every listed node and then raise the corruption error. -/
def brokenFrom (tg : Target) : Nat → List Nat → Bool
  | _, [] => false
  | prev, a :: rest =>
      ((tg.deref prev).newer == a) && !(a == tg.rlistAddr) &&
      (match rest with
       | [] => !((tg.deref ((tg.deref a).newer)).older == a)
       | _ :: _ =>
           ((tg.deref ((tg.deref a).newer)).older == a) && brokenFrom tg a rest)

/-- Outcome kind of the walk loop alone (0 = reached the sentinel,
1 = corruption error, 2 = fuel ran out); used to show the outcome never
depends on the memory-read service. -/
def statusAux (tg : Target) : Nat → Nat → Nat
  | 0, _ => 2
  | fuel + 1, cursor =>
    if cursor = tg.rlistAddr then 0
    else if (tg.deref ((tg.deref cursor).newer)).older ≠ cursor then 1
    else statusAux tg fuel (tg.deref cursor).newer

/-- The advisory warnings a schema check surfaced (none if it failed). -/
def warningsOf : Except String (List String) → List String
  | .ok ws => ws
  | .error _ => []

/-- The fatal error a schema check raised, if any. -/
def errorOf : Except String (List String) → Option String
  | .ok _ => none
  | .error e => some e

/-! ### Concrete inputs used by the witnesses and counterexamples -/

def tcb0 : TCB :=
  { r13 := 0, stklimitPresent := false, stklimit := 0, pname := "", state := 0,
    flags := 0, prio := 0, refs := 0, timePresent := false, time := 0,
    newer := 0, older := 0 }

def tcbScan : TCB := { tcb0 with stklimitPresent := true, stklimit := 100, r13 := 108 }

def tcbNoLimit : TCB := { tcb0 with r13 := 4096, pname := "idle" }

def tcbNegSize : TCB := { tcb0 with stklimitPresent := true, stklimit := 100, r13 := 50 }

def tcbState14 : TCB := { tcb0 with state := 14 }

def tcbState15 : TCB := { tcb0 with state := 15 }

def tcbStateNeg : TCB := { tcb0 with state := -3 }

def memAllFill : Int → Int → Option (List Nat) := fun _ _ => some [85, 85, 85]

def memHeadUsed : Int → Int → Option (List Nat) := fun _ _ => some [0, 85, 85]

def memSeven : Int → Int → Option (List Nat) :=
  fun _ _ => some [85, 85, 85, 85, 85, 85, 85, 0]

def memFail : Int → Int → Option (List Nat) := fun _ _ => none

/-- A consistent two-node registry: anchor at `0`, threads at `1` and `2`. -/
def tgTwo : Target :=
  { deref := fun a =>
      if a = 0 then { tcb0 with newer := 1, older := 2 }
      else if a = 1 then { tcb0 with pname := "main", newer := 2, older := 0 }
      else { tcb0 with pname := "idle", newer := 0, older := 1 }
    mem := memFail
    rlistAddr := 0 }

/-- A one-node registry whose single thread has a corrupt back-link
(`older = 7` instead of the anchor `0`); every link the walk checks is
consistent. -/
def tgBrokenFirst : Target :=
  { deref := fun a =>
      if a = 0 then { tcb0 with newer := 1, older := 1 }
      else { tcb0 with pname := "main", newer := 0, older := 7 }
    mem := memFail
    rlistAddr := 0 }

/-- A two-node registry where the second node's back-link is corrupt
(`older = 9` instead of `1`). -/
def tgBrokenSecond : Target :=
  { deref := fun a =>
      if a = 0 then { tcb0 with newer := 1, older := 2 }
      else if a = 1 then { tcb0 with pname := "main", newer := 2, older := 0 }
      else { tcb0 with pname := "idle", newer := 0, older := 9 }
    mem := memFail
    rlistAddr := 0 }

/-! ### Lemmas about the fill scan -/

lemma scanFrom_all_fill (l : List Nat) (h : ∀ b ∈ l, b = FILL_BYTE) :
    ∀ i, scanFrom i l = none := by
  induction l with
  | nil => intro i; rfl
  | cons b rest ih =>
    intro i
    have hb : b = FILL_BYTE := h b (List.mem_cons_self _ _)
    simp only [scanFrom, hb, ne_eq, not_true_eq_false, if_false]
    exact ih (fun x hx => h x (List.mem_cons_of_mem _ hx)) (i + 1)

lemma scanFrom_first (l : List Nat) (i : Nat) (hi : i < l.length)
    (hne : l.getD i 0 ≠ FILL_BYTE)
    (hfill : ∀ j, j < i → l.getD j 0 = FILL_BYTE) :
    ∀ k, scanFrom k l = some (k + i) := by
  induction l generalizing i with
  | nil => simp at hi
  | cons b rest ih =>
    intro k
    cases i with
    | zero =>
      have hb : b ≠ FILL_BYTE := by simpa using hne
      simp [scanFrom, hb]
    | succ i' =>
      have hb : b = FILL_BYTE := by
        have := hfill 0 (Nat.succ_pos _); simpa using this
      have hne' : rest.getD i' 0 ≠ FILL_BYTE := by simpa using hne
      have hfill' : ∀ j, j < i' → rest.getD j 0 = FILL_BYTE := by
        intro j hj
        have := hfill (j + 1) (Nat.succ_lt_succ hj); simpa using this
      have hi' : i' < rest.length := by simpa using hi
      simp only [scanFrom, hb, ne_eq, not_true_eq_false, if_false]
      rw [ih i' hi' hne' hfill' (k + 1)]
      congr 1
      omega

lemma extract_stack_unused_of_read (mem : Int → Int → Option (List Nat))
    (addr : Nat) (t : TCB) (bytes : List Nat) (hpos : 0 < effStklimit t)
    (hmem : mem (effStklimit t) (t.r13 - effStklimit t) = some bytes) :
    (extractThread mem addr t).stack_unused = scanUnused bytes := by
  simp [extractThread, hpos, hmem]

/-- C3: when the stack scan runs (stack limit present and positive, memory
readable), `stack_unused` is the index of the first byte of the scanned range
that is not the fill byte `0x55`, and `0` when every byte is the fill byte. -/
theorem stack_scan_boundary_C3 (mem : Int → Int → Option (List Nat))
    (addr : Nat) (t : TCB) (bytes : List Nat)
    (hpos : 0 < effStklimit t)
    (hmem : mem (effStklimit t) (t.r13 - effStklimit t) = some bytes) :
    (∀ i, i < bytes.length → bytes.getD i 0 ≠ FILL_BYTE →
      (∀ j, j < i → bytes.getD j 0 = FILL_BYTE) →
      (extractThread mem addr t).stack_unused = (i : Int))
    ∧ ((∀ b ∈ bytes, b = FILL_BYTE) →
      (extractThread mem addr t).stack_unused = 0) := by
  have hshape := extract_stack_unused_of_read mem addr t bytes hpos hmem
  constructor
  · intro i hi hne hfill
    rw [hshape]
    unfold scanUnused
    rw [scanFrom_first bytes i hi hne hfill 0]
    simp
  · intro hall
    rw [hshape]
    unfold scanUnused
    rw [scanFrom_all_fill bytes hall 0]

/-- Witness for C3: an all-fill region gives `stack_unused = 0`, a region
whose byte 0 is non-fill gives `0`, and fill up to byte 7 gives `7`. -/
theorem stack_scan_boundary_C3_witness :
    (extractThread memAllFill 7 tcbScan).stack_unused = 0
    ∧ (extractThread memHeadUsed 7 tcbScan).stack_unused = 0
    ∧ (extractThread memSeven 7 tcbScan).stack_unused = 7 := by
  refine ⟨?_, ?_, ?_⟩
  · exact (stack_scan_boundary_C3 memAllFill 7 tcbScan [85, 85, 85]
      (by decide) rfl).2 (by decide)
  · exact (stack_scan_boundary_C3 memHeadUsed 7 tcbScan [0, 85, 85]
      (by decide) rfl).1 0 (by decide) (by decide) (by decide)
  · exact (stack_scan_boundary_C3 memSeven 7 tcbScan [85, 85, 85, 85, 85, 85, 85, 0]
      (by decide) rfl).1 7 (by decide) (by decide) (by decide)

/-- C4: if the stack-limit field is absent, or present with a non-positive
value, extraction sets `stack_size = 0` and `stack_unused = 0` and never
touches memory (the snapshot is the same under any memory-read service),
whatever the saved stack pointer `r13` is. -/
theorem stklimit_missing_no_scan_C4 (mem mem2 : Int → Int → Option (List Nat))
    (addr : Nat) (t : TCB) (h : effStklimit t ≤ 0) :
    (extractThread mem addr t).stack_size = 0
    ∧ (extractThread mem addr t).stack_unused = 0
    ∧ extractThread mem addr t = extractThread mem2 addr t := by
  have hnot : ¬ 0 < effStklimit t := not_lt.mpr h
  refine ⟨?_, ?_, ?_⟩ <;> simp [extractThread, hnot]

/-- Witness for C4: a thread-control-block without `p_stklimit` but with a
nonzero stack pointer yields zero stack size and headroom under two
different memory services. -/
theorem stklimit_missing_no_scan_C4_witness :
    (extractThread memAllFill 3 tcbNoLimit).stack_size = 0
    ∧ (extractThread memAllFill 3 tcbNoLimit).stack_unused = 0
    ∧ extractThread memAllFill 3 tcbNoLimit = extractThread memSeven 3 tcbNoLimit :=
  stklimit_missing_no_scan_C4 memAllFill memSeven 3 tcbNoLimit (by decide)

/-! ### Lemmas about the registry walk -/

lemma extractAt_address (tg : Target) (a : Nat) : (extractAt tg a).address = a := rfl

lemma rowsOf_consRow (snap : Snapshot) (r : WalkResult) :
    rowsOf (consRow snap r) = snap :: rowsOf r := by
  cases r <;> rfl

lemma shapeOf_fst_consRow (snap : Snapshot) (r : WalkResult) :
    (shapeOf (consRow snap r)).1 = (shapeOf r).1 := by
  cases r <;> rfl

lemma shapeOf_snd (r : WalkResult) : (shapeOf r).2 = (rowsOf r).length := by
  cases r <;> rfl

lemma rowsOf_walkAux (tg : Target) :
    ∀ fuel cursor,
      rowsOf (walkAux tg fuel cursor) = (visitedAux tg fuel cursor).map (extractAt tg) := by
  intro fuel
  induction fuel with
  | zero => intro cursor; rfl
  | succ fuel ih =>
    intro cursor
    by_cases hc : cursor = tg.rlistAddr
    · simp [walkAux, visitedAux, hc, rowsOf]
    · by_cases hb : (tg.deref ((tg.deref cursor).newer)).older = cursor
      · simp [walkAux, visitedAux, hc, hb, rowsOf_consRow, ih]
      · simp [walkAux, visitedAux, hc, hb, rowsOf]

lemma statusOf_walkAux (tg : Target) :
    ∀ fuel cursor, (shapeOf (walkAux tg fuel cursor)).1 = statusAux tg fuel cursor := by
  intro fuel
  induction fuel with
  | zero => intro cursor; rfl
  | succ fuel ih =>
    intro cursor
    by_cases hc : cursor = tg.rlistAddr
    · simp [walkAux, statusAux, hc, shapeOf]
    · by_cases hb : (tg.deref ((tg.deref cursor).newer)).older = cursor
      · simp [walkAux, statusAux, hc, hb, shapeOf_fst_consRow, ih]
      · simp [walkAux, statusAux, hc, hb, shapeOf]

lemma visitedAux_withMem (tg : Target) (m : Int → Int → Option (List Nat)) :
    ∀ fuel cursor, visitedAux (withMem tg m) fuel cursor = visitedAux tg fuel cursor := by
  intro fuel
  induction fuel with
  | zero => intro cursor; rfl
  | succ fuel ih =>
    intro cursor
    by_cases hc : cursor = tg.rlistAddr
    · simp [visitedAux, withMem, hc]
    · by_cases hb : (tg.deref ((tg.deref cursor).newer)).older = cursor
      · simp [visitedAux, withMem, hc, hb]
        exact ih _
      · simp [visitedAux, withMem, hc, hb]

lemma statusAux_withMem (tg : Target) (m : Int → Int → Option (List Nat)) :
    ∀ fuel cursor, statusAux (withMem tg m) fuel cursor = statusAux tg fuel cursor := by
  intro fuel
  induction fuel with
  | zero => intro cursor; rfl
  | succ fuel ih =>
    intro cursor
    by_cases hc : cursor = tg.rlistAddr
    · simp [statusAux, withMem, hc]
    · by_cases hb : (tg.deref ((tg.deref cursor).newer)).older = cursor
      · simp [statusAux, withMem, hc, hb]
        exact ih _
      · simp [statusAux, withMem, hc, hb]

lemma map_address_extractAt (tg : Target) (l : List Nat) :
    (l.map (extractAt tg)).map Snapshot.address = l := by
  induction l with
  | nil => rfl
  | cons a l ih => simp [extractAt_address, ih]

/-- C5: a memory-read failure during the fill scan is absorbed locally —
the snapshot is still complete (all identity/state fields extracted,
`stack_unused` degraded to `0`), and a walk's outcome kind, row count and
visited addresses never depend on the memory-read service at all, so the
failure cannot abort the walk for subsequent nodes. -/
theorem scan_failure_local_C5 (mem : Int → Int → Option (List Nat)) (addr : Nat)
    (t : TCB) (hpos : 0 < effStklimit t)
    (hfail : mem (effStklimit t) (t.r13 - effStklimit t) = none) :
    extractThread mem addr t =
      { address := addr, stack_limit := effStklimit t, stack_start := t.r13,
        stack_size := t.r13 - effStklimit t, stack_unused := 0,
        name := if 0 < t.pname.length then t.pname else "<no name>",
        state := t.state, flags := t.flags, prio := t.prio, refs := t.refs,
        time := if t.timePresent then t.time else 0 }
    ∧ ∀ (tg : Target) (m2 : Int → Int → Option (List Nat)) (fuel : Nat),
        shapeOf (walk (withMem tg m2) fuel) = shapeOf (walk tg fuel)
        ∧ (rowsOf (walk (withMem tg m2) fuel)).map Snapshot.address
            = (rowsOf (walk tg fuel)).map Snapshot.address := by
  constructor
  · simp [extractThread, hpos, hfail]
  · intro tg m2 fuel
    have hd : (withMem tg m2).deref = tg.deref := rfl
    have hr : (withMem tg m2).rlistAddr = tg.rlistAddr := rfl
    constructor
    · refine Prod.ext ?_ ?_
      · simp only [walk, hd, hr]
        rw [statusOf_walkAux, statusOf_walkAux, statusAux_withMem]
      · simp only [walk, hd, hr, shapeOf_snd]
        rw [rowsOf_walkAux, rowsOf_walkAux, List.length_map, List.length_map,
          visitedAux_withMem]
    · simp only [walk, hd, hr]
      rw [rowsOf_walkAux, rowsOf_walkAux, map_address_extractAt,
        map_address_extractAt, visitedAux_withMem]

/-- Witness for C5: a memory service that always fails still yields a full
snapshot with `stack_unused = 0`, and swapping the memory service of a
two-thread registry leaves the walk outcome unchanged. -/
theorem scan_failure_local_C5_witness :
    extractThread memFail 5 tcbScan =
      { address := 5, stack_limit := 100, stack_start := 108, stack_size := 8,
        stack_unused := 0, name := "<no name>", state := 0, flags := 0, prio := 0,
        refs := 0, time := 0 }
    ∧ shapeOf (walk (withMem tgTwo memAllFill) 3) = shapeOf (walk tgTwo 3) := by
  constructor
  · exact (scan_failure_local_C5 memFail 5 tcbScan (by decide) rfl).1
  · exact ((scan_failure_local_C5 memFail 5 tcbScan (by decide) rfl).2
      tgTwo memAllFill 3).1

/-- C8: every walk outcome prints exactly one row, in visit order, for each
node visited before the walk stopped (sentinel reached, corruption error
raised, or the fuel bound hit): the rendered table never silently omits a
row for a thread that precedes the point of failure. -/
theorem walk_rows_complete_C8 (tg : Target) (fuel : Nat) :
    rowsOf (walk tg fuel)
      = (visitedAux tg fuel (tg.deref tg.rlistAddr).newer).map (extractAt tg) :=
  rowsOf_walkAux tg fuel _

lemma chainOK_nil_iff (tg : Target) (prev : Nat) :
    chainOK tg prev [] = true ↔
      (tg.deref prev).newer = tg.rlistAddr
      ∧ (tg.deref tg.rlistAddr).older = prev := by
  simp [chainOK]

lemma chainOK_cons_iff (tg : Target) (prev a : Nat) (rest : List Nat) :
    chainOK tg prev (a :: rest) = true ↔
      (tg.deref prev).newer = a ∧ (tg.deref a).older = prev
      ∧ a ≠ tg.rlistAddr ∧ chainOK tg a rest = true := by
  simp [chainOK, and_assoc]

lemma chainOK_head (tg : Target) (prev : Nat) (chain : List Nat)
    (h : chainOK tg prev chain = true) :
    (tg.deref ((tg.deref prev).newer)).older = prev := by
  cases chain with
  | nil =>
    rw [chainOK_nil_iff] at h
    rw [h.1]
    exact h.2
  | cons a rest =>
    rw [chainOK_cons_iff] at h
    rw [h.1]
    exact h.2.1

lemma walkAux_chainOK (tg : Target) :
    ∀ (chain : List Nat) (prev : Nat) (fuel : Nat),
      chainOK tg prev chain = true → chain.length < fuel →
      walkAux tg fuel ((tg.deref prev).newer) = .ok (chain.map (extractAt tg)) := by
  intro chain
  induction chain with
  | nil =>
    intro prev fuel h hf
    cases fuel with
    | zero => simp at hf
    | succ f =>
      rw [chainOK_nil_iff] at h
      simp [walkAux, h.1]
  | cons a rest ih =>
    intro prev fuel h hf
    rw [chainOK_cons_iff] at h
    obtain ⟨h1, _, h3, h4⟩ := h
    have hhead := chainOK_head tg a rest h4
    cases fuel with
    | zero => simp at hf
    | succ f =>
      rw [h1]
      have hrest : rest.length < f := by simp at hf; omega
      simp [walkAux, h3, hhead, ih a f h4 hrest, consRow]

/-- C1: for every circular registry whose chain of `N` non-anchor nodes
satisfies the older/newer back-link invariant, the walk terminates normally
at the sentinel, printing exactly `N` snapshots, one per node in
`newer`-link order, with pairwise distinct addresses (no node visited
twice). -/
theorem walk_complete_C1 (tg : Target) (chain : List Nat) (fuel : Nat)
    (hchain : chainOK tg tg.rlistAddr chain = true)
    (hnodup : chain.Nodup) (hfuel : chain.length < fuel) :
    walk tg fuel = .ok (chain.map (extractAt tg))
    ∧ (chain.map (extractAt tg)).length = chain.length
    ∧ (chain.map (extractAt tg)).map Snapshot.address = chain
    ∧ ((chain.map (extractAt tg)).map Snapshot.address).Nodup := by
  refine ⟨walkAux_chainOK tg chain tg.rlistAddr fuel hchain hfuel, by simp, ?_, ?_⟩
  · exact map_address_extractAt tg chain
  · rw [map_address_extractAt]
    exact hnodup

/-- Witness for C1: a consistent two-thread registry walks to completion with
exactly two rows, one per node, distinct addresses. -/
theorem walk_complete_C1_witness :
    walk tgTwo 3 = .ok [extractAt tgTwo 1, extractAt tgTwo 2]
    ∧ ([extractAt tgTwo 1, extractAt tgTwo 2].map Snapshot.address).Nodup := by
  have h := walk_complete_C1 tgTwo [1, 2] 3 (by decide) (by decide) (by decide)
  exact ⟨h.1, h.2.2.2⟩

/-- Counterexample to C2: a one-node registry whose single thread has a
corrupt back-link (`older = 7`, not the anchor) — corruption at node
`k = 1`.  The claim demands an abort with a corruption error after `k − 1 = 0`
snapshots, but the walk never validates the first node's back-link: it
completes normally and prints that node's row. -/
theorem walk_first_backlink_unchecked_C2_cex :
    (tgBrokenFirst.deref
        ((tgBrokenFirst.deref tgBrokenFirst.rlistAddr).newer)).older
      ≠ tgBrokenFirst.rlistAddr
    ∧ walk tgBrokenFirst 2 = .ok [extractAt tgBrokenFirst 1] := by
  constructor
  · decide
  · rfl

lemma brokenFrom_single_iff (tg : Target) (prev a : Nat) :
    brokenFrom tg prev [a] = true ↔
      (tg.deref prev).newer = a ∧ a ≠ tg.rlistAddr
      ∧ (tg.deref ((tg.deref a).newer)).older ≠ a := by
  simp [brokenFrom, and_assoc]

lemma brokenFrom_cons2_iff (tg : Target) (prev a b : Nat) (r : List Nat) :
    brokenFrom tg prev (a :: b :: r) = true ↔
      (tg.deref prev).newer = a ∧ a ≠ tg.rlistAddr
      ∧ (tg.deref ((tg.deref a).newer)).older = a
      ∧ brokenFrom tg a (b :: r) = true := by
  simp [brokenFrom, and_assoc]

lemma walkAux_brokenFrom (tg : Target) :
    ∀ (good : List Nat) (prev : Nat) (fuel : Nat),
      brokenFrom tg prev good = true → good.length ≤ fuel →
      walkAux tg fuel ((tg.deref prev).newer)
        = .corrupt (good.map (extractAt tg)) CORRUPT_MSG := by
  intro good
  induction good with
  | nil => intro prev fuel h _; simp [brokenFrom] at h
  | cons a rest ih =>
    intro prev fuel h hf
    cases fuel with
    | zero => simp at hf
    | succ f =>
      cases rest with
      | nil =>
        rw [brokenFrom_single_iff] at h
        obtain ⟨h1, h2, h3⟩ := h
        rw [h1]
        simp [walkAux, h2, h3]
      | cons b r =>
        rw [brokenFrom_cons2_iff] at h
        obtain ⟨h1, h2, h3, h4⟩ := h
        rw [h1]
        have hrest : (b :: r).length ≤ f := by simp at hf ⊢; omega
        simp [walkAux, h2, h3, ih a f h4 hrest, consRow]

/-- C2 (amended): when the back-link of the `k`-th node reached via `newer`
(for `k ≥ 2`, the broken link being the first one the walk actually checks)
does not point back at the node just left, the walk aborts with the fixed
corruption error message — which names no node — after printing exactly
`k − 1` fully-extracted snapshots, and visits no node past the mismatch.
The first node's back-link is never validated (see the counterexample). -/
theorem walk_corruption_aborts_C2 (tg : Target) (good : List Nat) (fuel : Nat)
    (hbroken : brokenFrom tg tg.rlistAddr good = true)
    (hfuel : good.length ≤ fuel) :
    walk tg fuel = .corrupt (good.map (extractAt tg)) CORRUPT_MSG
    ∧ (good.map (extractAt tg)).length = good.length :=
  ⟨walkAux_brokenFrom tg good tg.rlistAddr fuel hbroken hfuel, by simp⟩

/-- Witness for C2 (amended): corruption at node `k = 2` of a two-thread
registry aborts the walk with the fixed message after exactly one row. -/
theorem walk_corruption_aborts_C2_witness :
    walk tgBrokenSecond 2
      = .corrupt [extractAt tgBrokenSecond 1] CORRUPT_MSG :=
  (walk_corruption_aborts_C2 tgBrokenSecond [1] 2 (by decide) (by decide)).1

/-! ### Schema check, state validation, negative stack size -/

/-- C6: the schema check fails — with the fixed registry-unavailable
message — exactly when `p_newer` or `p_older` is absent from the `Thread`
struct type; absence of `p_stklimit` or `p_time` never fails the check
and only adds the corresponding human-readable advisory. -/
theorem sanity_check_spec_C6 (keys : List String) :
    ((sanity_check keys).isOk
      = (keys.contains "p_newer" && keys.contains "p_older"))
    ∧ (errorOf (sanity_check keys)
      = if keys.contains "p_newer" && keys.contains "p_older" then none
        else some REGISTRY_ERROR)
    ∧ (warningsOf (sanity_check keys)
      = if keys.contains "p_newer" && keys.contains "p_older" then
          (if keys.contains "p_stklimit" then [] else [STKLIMIT_WARNING])
            ++ (if keys.contains "p_time" then [] else [TIME_WARNING])
        else []) := by
  by_cases h1 : "p_newer" ∈ keys <;>
    by_cases h2 : "p_older" ∈ keys <;>
      simp [sanity_check, h1, h2, Except.isOk, Except.toBool, errorOf, warningsOf]

/-- Counterexample to C7: a thread-control-block whose state ordinal is 15
(the table length) is extracted successfully — extraction performs no
validation and stores the ordinal unchanged; only the later `state_str`
evaluation raises (models Python's `IndexError` as `none`). -/
theorem extract_state_unvalidated_C7_cex :
    extractThread memFail 3 tcbState15
      = { address := 3, stack_limit := 0, stack_start := 0, stack_size := 0,
          stack_unused := 0, name := "<no name>", state := 15, flags := 0,
          prio := 0, refs := 0, time := 0 }
    ∧ state_str (extractThread memFail 3 tcbState15) = none := by
  constructor <;> rfl

/-- C7 (amended): extraction stores the state ordinal unchanged without
validating it; the bound is enforced only when `state_str` is evaluated:
the last valid ordinal 14 yields `"FINAL"`, while ordinal 15 (the table
length) makes `state_str` raise an index error (`none`) — the table is
never read past its end. -/
theorem state_check_at_state_str_C7 (mem : Int → Int → Option (List Nat))
    (addr : Nat) (t14 t15 : TCB) (h14 : t14.state = 14) (h15 : t15.state = 15) :
    (extractThread mem addr t14).state = 14
    ∧ state_str (extractThread mem addr t14) = some "FINAL"
    ∧ (extractThread mem addr t15).state = 15
    ∧ state_str (extractThread mem addr t15) = none := by
  have e14 : (extractThread mem addr t14).state = t14.state := rfl
  have e15 : (extractThread mem addr t15).state = t15.state := rfl
  have s14 : state_str (extractThread mem addr t14)
      = pyIndex THREAD_STATE t14.state := rfl
  have s15 : state_str (extractThread mem addr t15)
      = pyIndex THREAD_STATE t15.state := rfl
  refine ⟨by rw [e14, h14], by rw [s14, h14]; decide,
    by rw [e15, h15], by rw [s15, h15]; decide⟩

/-- Witness for C7 (amended): concrete thread-control-blocks with ordinals
14 and 15. -/
theorem state_check_at_state_str_C7_witness :
    (extractThread memFail 3 tcbState14).state = 14
    ∧ state_str (extractThread memFail 3 tcbState14) = some "FINAL"
    ∧ (extractThread memFail 3 tcbState15).state = 15
    ∧ state_str (extractThread memFail 3 tcbState15) = none :=
  state_check_at_state_str_C7 memFail 3 tcbState14 tcbState15 rfl rfl

/-- C9: a negative state ordinal `n` with `-15 ≤ n ≤ -1` is rejected
nowhere: extraction stores it unchanged and `state_str` silently returns
the table entry at position `15 + n` via Python negative indexing (a valid
name for a different state); extraction raises for no ordinal at all, and
an ordinal `≥ 15` or `< -15` yields an index error only when `state_str`
is evaluated. -/
theorem negative_state_indexing_C9 (mem : Int → Int → Option (List Nat))
    (addr : Nat) (t : TCB) (n : Int) (h : t.state = n) :
    (extractThread mem addr t).state = n
    ∧ (-15 ≤ n → n ≤ -1 →
        state_str (extractThread mem addr t) = THREAD_STATE.get? (15 + n).toNat
        ∧ (THREAD_STATE.get? (15 + n).toNat).isSome = true)
    ∧ (15 ≤ n ∨ n < -15 → state_str (extractThread mem addr t) = none) := by
  have e : (extractThread mem addr t).state = t.state := rfl
  have s : state_str (extractThread mem addr t) = pyIndex THREAD_STATE t.state := rfl
  have hlen : (THREAD_STATE.length : Int) = 15 := rfl
  refine ⟨by rw [e, h], ?_, ?_⟩
  · intro hlo hhi
    rw [s, h]
    unfold pyIndex
    rw [if_neg (by omega : ¬ (0 : Int) ≤ n), hlen, if_pos (by omega : (0 : Int) ≤ n + 15)]
    have hb : (n + 15).toNat < THREAD_STATE.length := by
      have : THREAD_STATE.length = 15 := rfl
      omega
    constructor
    · rw [show (15 + n).toNat = (n + 15).toNat by omega]
    · rw [show (15 + n).toNat = (n + 15).toNat by omega,
        List.get?_eq_get hb]
      rfl
  · intro hcase
    rw [s, h]
    unfold pyIndex
    rcases hcase with hge | hlt
    · rw [if_pos (by omega : (0 : Int) ≤ n)]
      exact List.get?_eq_none.mpr (by
        have : THREAD_STATE.length = 15 := rfl
        omega)
    · rw [if_neg (by omega : ¬ (0 : Int) ≤ n), hlen,
        if_neg (by omega : ¬ (0 : Int) ≤ n + 15)]

/-- Witness for C9: ordinal `-3` is stored unchanged and `state_str`
silently yields the entry at index `12` (`"WTMSG"`). -/
theorem negative_state_indexing_C9_witness :
    (extractThread memFail 3 tcbStateNeg).state = -3
    ∧ state_str (extractThread memFail 3 tcbStateNeg) = some "WTMSG" := by
  have h := negative_state_indexing_C9 memFail 3 tcbStateNeg (-3) rfl
  have h2 := (h.2.1 (by decide) (by decide)).1
  exact ⟨h.1, by rw [h2]; rfl⟩

/-- C10: with the stack-limit field present and positive but the saved
stack pointer below it, extraction neither fails nor guards the
subtraction: `stack_size` becomes the negative `r13 - stklimit` and the
memory read is still attempted with exactly that negative length, its
outcome alone deciding `stack_unused`. -/
theorem negative_stack_size_scan_C10 (mem : Int → Int → Option (List Nat))
    (addr : Nat) (t : TCB) (hpres : t.stklimitPresent = true)
    (hpos : 0 < t.stklimit) (hlt : t.r13 < t.stklimit) :
    (extractThread mem addr t).stack_size = t.r13 - t.stklimit
    ∧ (extractThread mem addr t).stack_size < 0
    ∧ (extractThread mem addr t).stack_unused
        = (match mem t.stklimit (t.r13 - t.stklimit) with
           | some bytes => scanUnused bytes
           | none => 0) := by
  have heff : effStklimit t = t.stklimit := by simp [effStklimit, hpres]
  have hp : 0 < effStklimit t := heff ▸ hpos
  have key : (extractThread mem addr t).stack_size = t.r13 - t.stklimit
      ∧ (extractThread mem addr t).stack_unused
        = (match mem t.stklimit (t.r13 - t.stklimit) with
           | some bytes => scanUnused bytes
           | none => 0) := by
    cases hm : mem t.stklimit (t.r13 - t.stklimit) with
    | none => constructor <;> simp [extractThread, hp, heff, hm, hpos]
    | some bytes => constructor <;> simp [extractThread, hp, heff, hm, hpos]
  exact ⟨key.1, by rw [key.1]; omega, key.2⟩

/-- Witness for C10: `stklimit = 100`, `r13 = 50` gives `stack_size = -50`;
the scan against an all-fill read yields `stack_unused = 0`. -/
theorem negative_stack_size_scan_C10_witness :
    (extractThread memAllFill 3 tcbNegSize).stack_size = -50
    ∧ (extractThread memAllFill 3 tcbNegSize).stack_size < 0
    ∧ (extractThread memAllFill 3 tcbNegSize).stack_unused = 0 := by
  have h := negative_stack_size_scan_C10 memAllFill 3 tcbNegSize rfl
    (by decide) (by decide)
  exact ⟨h.1, h.2.1, by rw [h.2.2]; rfl⟩

end Chibios
